import Mathlib

/-!
# Verification of the FVM execution-core specification

A shallow embedding, in Lean 4, of the parts of the `ref-fvm` repository that
the specification's claims are about:

* the actor-runtime blockstore adapter (`ActorBlockstore` in
  `actors/runtime/src/runtime/sdk.rs`), in particular `put_keyed`;
* the stateless crypto verification routines (`fvm/src/kernel/crypto.rs`):
  `verify`, `verify_bls_aggregate`, `ecrecover`;
* the fixed-order tuple serialization of actor records (the DAG-CBOR codec is
  an external library, modelled here at the byte level);
* the `self_destruct` kernel operation (modelled from the spec — only its SDK
  wrapper is in the sources);
* the `abort` syscall handler (`fvm/src/syscalls/vm.rs`);
* the SDK's `params_cbor` (`sdk/src/message.rs`).

External cryptographic primitives (BLS/secp256k1 operations, hash digests)
are consumed by the sources as opaque library calls; the embedding
parameterizes over them, so every theorem quantifies over all possible
behaviours of those primitives.  Machine integers are modelled as `Nat`
(the sources never exercise overflow in the code paths treated here); byte
strings are `List Nat`.
-/

namespace FvmSpec

/-! ## Common data model -/

/-- A content identifier, the structural view used by the sources: a version,
a codec tag, a multihash function code, and the digest bytes.  (The binary
form with varint-encoded fields appears below, for the serialization claims.) -/
structure Cid where
  version : Nat
  codec : Nat
  hashCode : Nat
  digest : List Nat
deriving DecidableEq, Repr

/-- Signature type tag of `fvm_shared::crypto::signature::Signature`. -/
inductive SigType where
  | secp256k1
  | bls
deriving DecidableEq, Repr

/-- `fvm_shared::crypto::signature::Signature`: a type tag plus raw bytes.
`Signature::bytes()` projects the `bytes` field. -/
structure Signature where
  sigType : SigType
  bytes : List Nat
deriving DecidableEq, Repr

/-- Address protocol tags of `fvm_shared::address::Protocol`.  Only `bls` and
`secp256k1` identify a cryptographic key; `id` and `actor` do not. -/
inductive Protocol where
  | id
  | secp256k1
  | actor
  | bls
deriving DecidableEq, Repr

/-- An address: a protocol tag plus payload bytes (`Address::payload_bytes`).
For `bls` addresses the payload is the public key; for `secp256k1` it is the
address hash of the public key. -/
structure Address where
  protocol : Protocol
  payload : List Nat
deriving DecidableEq, Repr

/-! ## Exit codes

The numeric exit codes live in `fvm_shared` (outside the shown sources);
only their identities matter for the claims.  The values below follow the
actors error-code band used by the sources (`ErrIllegalArgument = 16`, ...,
`ErrSerialization = 21`). -/

def errIllegalArgument : Nat := 16
def errIllegalState : Nat := 20
def errSerialization : Nat := 21

/-! ## C1: the actor blockstore's `put_keyed`
(`actors/runtime/src/runtime/sdk.rs`)

The embedding is parameterized by
* `supported : Nat → Bool` — which multihash function codes
  `multihash::Code::try_from` accepts, and
* `hashFn : Nat → List Nat → List Nat` — the digest computed by the hash
  function of a given code (the `ipld::put` syscall hashes the block with the
  requested code; the hard-coded digest size 32 of the source is absorbed
  into `hashFn`).

The `ipld::put` syscall itself is engine-side code outside the shown sources;
it is modelled as succeeding with the content-addressed CID of the block. -/

/-- `ActorError` from the actors runtime: an exit code plus a message. -/
structure ActorError where
  exitCode : Nat
  msg : String
deriving DecidableEq, Repr

/-- Embeds `Code::try_from(k.hash().code())`: accepts exactly the supported
multihash function codes. -/
def codeTryFrom (supported : Nat → Bool) (c : Nat) : Option Nat :=
  if supported c then some c else none

/-- Embeds `ActorBlockstore::put` specialised to a successful `ipld::put`
syscall: stores the block and returns the CID computed from the requested
hash code and codec (`Cid::new_v1`-shaped: version 1). -/
def ActorBlockstore.put (hashFn : Nat → List Nat → List Nat)
    (code : Nat) (codec : Nat) (data : List Nat) : Cid :=
  { version := 1, codec := codec, hashCode := code, digest := hashFn code data }

/-- Embeds `ActorBlockstore::put_keyed` from `actors/runtime/src/runtime/sdk.rs`:
convert the key's multihash code (failure → `ErrSerialization`), re-`put` the
block under the key's codec and hash code, and fail with `ErrSerialization`
when the computed CID differs from the key. -/
def ActorBlockstore.put_keyed (supported : Nat → Bool)
    (hashFn : Nat → List Nat → List Nat) (k : Cid) (block : List Nat) :
    Except ActorError Unit :=
  match codeTryFrom supported k.hashCode with
  | none => .error ⟨errSerialization, "unsupported multihash code"⟩
  | some code =>
    let k2 := ActorBlockstore.put hashFn code k.codec block
    if k ≠ k2 then
      .error ⟨errSerialization, "put block cid mismatch"⟩
    else
      .ok ()

/-- Spec side of C1: "hashing `bytes` under the codec/hash implied by `cid`",
when the hash function implied by `cid` exists at all. -/
def recomputeCid (supported : Nat → Bool) (hashFn : Nat → List Nat → List Nat)
    (k : Cid) (block : List Nat) : Option Cid :=
  (codeTryFrom supported k.hashCode).map
    (fun code => ActorBlockstore.put hashFn code k.codec block)

/-! ## C2–C4: BLS aggregate verification (`fvm/src/kernel/crypto.rs`)

Parameterized over the `bls_signatures` library primitives:
`sigDec` models `Signature::from_bytes`, `pkDec` models
`PublicKey::from_bytes`, `verifyMessages` models `verify_messages`.
Decoded signatures and keys are represented by `Nat` handles. -/

/-- Embeds `pub_keys.iter().map(BlsPubKey::from_bytes).collect::<Result<_,_>>()`:
decode every key, short-circuiting on the first failure. -/
def collectPubKeys (pkDec : List Nat → Option Nat) :
    List (List Nat) → Option (List Nat)
  | [] => some []
  | k :: ks =>
    match pkDec k with
    | none => none
    | some pk =>
      match collectPubKeys pkDec ks with
      | none => none
      | some pks => some (pk :: pks)

/-- Embeds `verify_bls_aggregate` from `fvm/src/kernel/crypto.rs`: mismatched
lengths → `false`; empty data → `true`; then decode the aggregate signature
and every key (any failure → `false`) and call the library's aggregate
verification. -/
def verify_bls_aggregate (sigDec pkDec : List Nat → Option Nat)
    (verifyMessages : Nat → List (List Nat) → List Nat → Bool)
    (data : List (List Nat)) (pub_keys : List (List Nat))
    (aggregate_sig : Signature) : Bool :=
  if data.length ≠ pub_keys.length then
    false
  else if data.isEmpty then
    true
  else
    match sigDec aggregate_sig.bytes with
    | none => false
    | some sig =>
      match collectPubKeys pkDec pub_keys with
      | none => false
      | some pks => verifyMessages sig data pks

/-! ## C5–C6: signature verification dispatch and `ecrecover`
(`fvm/src/kernel/crypto.rs`) -/

/-- The `libsecp256k1` errors relevant here: `InvalidRecoveryId` versus every
other variant (which the `From` conversion lumps together). -/
inductive SecpError where
  | invalidRecoveryId
  | other (tag : Nat)
deriving DecidableEq, Repr

/-- The crypto `Error` enum of `fvm/src/kernel/crypto.rs`. -/
inductive CryptoError where
  | signingError (msg : String)
  | invalidRecovery (msg : String)
  | invalidPubKey (msg : String)
deriving DecidableEq, Repr

/-- Embeds `impl From<SecpError> for Error`: `InvalidRecoveryId` becomes
`InvalidRecovery`, anything else becomes `SigningError`. -/
def secpErrorToCryptoError : SecpError → CryptoError
  | .invalidRecoveryId => .invalidRecovery "InvalidRecoveryId"
  | .other tag => .signingError ("secp error " ++ toString tag)

/-- Embeds `libsecp256k1::RecoveryId::parse`: accepts exactly the bytes
`0..=3`, anything else is `InvalidRecoveryId`. -/
def recoveryIdParse (b : Nat) : Except SecpError Nat :=
  if b < 4 then .ok b else .error .invalidRecoveryId

/-- The `libsecp256k1` primitives `ecrecover` consumes, as opaque parameters:
`parseStandard` models `Signature::parse_standard`, `recover` models key
recovery from (message, signature, recovery id), `serializePub` models
`PublicKey::serialize` (65 bytes). -/
structure SecpLib where
  parseStandard : List Nat → Except SecpError Nat
  recover : List Nat → Nat → Nat → Except SecpError Nat
  serializePub : Nat → List Nat

/-- Embeds `Address::new_secp256k1` (from `fvm_shared`, outside the shown
sources): checks the 65-byte public-key length and hashes the key into the
address payload. -/
def newSecpAddress (addressHash : List Nat → List Nat) (pubkey : List Nat) :
    Except String Address :=
  if pubkey.length = 65 then
    .ok ⟨.secp256k1, addressHash pubkey⟩
  else
    .error "invalid public key length"

/-- Embeds `ecrecover` from `fvm/src/kernel/crypto.rs`: parse the recovery id
from byte 64, parse the 64-byte signature, recover the public key, and build a
secp256k1 address from it, converting each library error through
`secpErrorToCryptoError` (the `?` operator's `From` conversion). -/
def ecrecover (lib : SecpLib) (addressHash : List Nat → List Nat)
    (hash : List Nat) (signature : List Nat) : Except CryptoError Address :=
  match recoveryIdParse (signature.getD 64 0) with
  | .error e => .error (secpErrorToCryptoError e)
  | .ok recId =>
    match lib.parseStandard (signature.take 64) with
    | .error e => .error (secpErrorToCryptoError e)
    | .ok sig =>
      match lib.recover hash sig recId with
      | .error e => .error (secpErrorToCryptoError e)
      | .ok key =>
        match newSecpAddress addressHash (lib.serializePub key) with
        | .error m => .error (.invalidPubKey m)
        | .ok addr => .ok addr

/-- Embeds `verify_bls_sig`: decode the public key from the address payload,
decode the signature, and verify the single message against the single key. -/
def verify_bls_sig (pkDec sigDec : List Nat → Option Nat)
    (verifyMessages : Nat → List (List Nat) → List Nat → Bool)
    (signature : List Nat) (data : List Nat) (addr : Address) :
    Except String Unit :=
  match pkDec addr.payload with
  | none => .error "invalid bls public key"
  | some pk =>
    match sigDec signature with
    | none => .error "invalid bls signature"
    | some sig =>
      if verifyMessages sig [data] [pk] then .ok ()
      else .error "bls signature verification failed"

/-- Embeds `verify_secp256k1_sig`: check the 65-byte signature length, hash
the data with blake2b-256, recover the signer address with `ecrecover`, and
compare it with the claimed address. -/
def verify_secp256k1_sig (lib : SecpLib)
    (blake2b256 : List Nat → List Nat) (addressHash : List Nat → List Nat)
    (signature : List Nat) (data : List Nat) (addr : Address) :
    Except String Unit :=
  if signature.length ≠ 65 then
    .error "Invalid Secp256k1 signature length"
  else
    match ecrecover lib addressHash (blake2b256 data) signature with
    | .error _ => .error "could not recover public key"
    | .ok recAddr =>
      if recAddr = addr then .ok ()
      else .error "Secp signature verification failed"

/-- Embeds `verify` from `fvm/src/kernel/crypto.rs`: dispatch on the address
protocol; `BLS` and `Secp256k1` go to the respective checks, every other
protocol is rejected outright. -/
def verify (pkDec sigDec : List Nat → Option Nat)
    (verifyMessages : Nat → List (List Nat) → List Nat → Bool)
    (lib : SecpLib) (blake2b256 addressHash : List Nat → List Nat)
    (sign : Signature) (data : List Nat) (addr : Address) :
    Except String Unit :=
  match addr.protocol with
  | .bls => verify_bls_sig pkDec sigDec verifyMessages sign.bytes data addr
  | .secp256k1 =>
    verify_secp256k1_sig lib blake2b256 addressHash sign.bytes data addr
  | _ => .error "Address must be resolved to verify a signature"

/-! ## Execution errors (shared by C8 and C9)

`ExecutionError` from `fvm/src/kernel`: a recoverable syscall error (exit
code plus message) or a fatal error. -/

/-- The two-tier execution error: `syscall` is recoverable and actor-visible,
`fatal` unwinds the whole message. -/
inductive ExecutionError where
  | syscall (code : Nat) (msg : String)
  | fatal (msg : String)
deriving DecidableEq, Repr

/-! ## C8: `self_destruct`

Modelled from the spec: the kernel implementation of `self_destruct` is not
among the shown sources (only the SDK wrapper in `sdk/src/sself.rs` is).
Per the spec, `self_destruct(beneficiary)` fails with a recoverable
illegal-argument fault when `beneficiary == self`; otherwise it zeroes the
actor's balance, credits the beneficiary, and marks the actor record for
removal at frame-commit time. -/

/-- The per-frame state `self_destruct` touches: the balances of all actors
(by actor id) and the set of records marked for removal at frame commit. -/
structure FrameState where
  balance : Nat → Nat
  marked : List Nat

/-- Modelled from the spec: `self_destruct(beneficiary)` on the kernel.
Missing from the sources: the kernel-side implementation (only the SDK
syscall wrapper is shown).  A returned error is recoverable (`syscall`), so
the frame aborts, its state is discarded, and the parent continues. -/
def selfDestruct (selfId beneficiary : Nat) (st : FrameState) :
    Except ExecutionError FrameState :=
  if beneficiary = selfId then
    .error (.syscall errIllegalArgument "benefactor cannot be itself")
  else
    .ok
      { balance := fun a =>
          if a = beneficiary then st.balance a + st.balance selfId
          else if a = selfId then 0
          else st.balance a
        marked := selfId :: st.marked }

/-! ## C9: the `abort` syscall handler (`fvm/src/syscalls/vm.rs`)

Pieces outside the shown sources are parameterized or modelled:
* `ExitCode::from_u32(..).filter(|c| !c.is_system_error())` is parameterized
  by the predicates `valid` (which `u32` values are exit codes) and `isSys`
  (which exit codes sit in the system-error band), and by the numeric value
  `sysIllegalArg` of `ExitCode::SysErrIllegalArgument`;
* `caller.kernel_and_memory()` is parameterized by its result `mem`
  (fatal when the instance's memory cannot be obtained);
* `memory.try_slice` is modelled as a bounds check yielding a recoverable
  illegal-argument syscall error when out of bounds;
* UTF-8 decoding of the message is parameterized by `utf8`; a failure is
  converted to a recoverable illegal-argument error (`or_illegal_argument`).
The kernel's `push_actor_error` backtrace is modelled as a list of
(exit code, message) pairs. -/

/-- The trap an `abort` ends in: `trap_from_code` carries the exit code,
`trap_from_error` marks a fatal abort of the whole message. -/
inductive Trap where
  | code (c : Nat)
  | fatal (msg : String)
deriving DecidableEq, Repr

/-- Embeds `ExitCode::from_u32(code).filter(|c| !c.is_system_error())
.unwrap_or(ExitCode::SysErrIllegalArgument)`. -/
def filteredExitCode (valid isSys : Nat → Bool) (sysIllegalArg : Nat)
    (code : Nat) : Nat :=
  if valid code && !isSys code then code else sysIllegalArg

/-- Models `Memory::try_slice(offset, len)`: the requested range of the
sandbox's linear memory, or a recoverable illegal-argument syscall error when
it falls outside the memory bounds. -/
def trySlice (memory : List Nat) (offset len : Nat) :
    Except ExecutionError (List Nat) :=
  if offset + len ≤ memory.length then
    .ok ((memory.drop offset).take len)
  else
    .error (.syscall errIllegalArgument "buffer out of bounds")

/-- Embeds the inner closure of `abort`: obtain kernel and memory, read the
abort message (empty length → "actor aborted"; otherwise slice the memory and
require UTF-8), and push the actor error onto the kernel's backtrace. -/
def abortReadAndPush (utf8 : List Nat → Option String)
    (mem : Except ExecutionError (List Nat))
    (backtrace : List (Nat × String)) (code : Nat)
    (message_off message_len : Nat) :
    Except ExecutionError (List (Nat × String)) :=
  match mem with
  | .error e => .error e
  | .ok memory =>
    if message_len = 0 then
      .ok (backtrace ++ [(code, "actor aborted")])
    else
      match trySlice memory message_off message_len with
      | .error e => .error e
      | .ok bytes =>
        match utf8 bytes with
        | none => .error (.syscall errIllegalArgument "error message was not utf8")
        | some s => .ok (backtrace ++ [(code, s)])

/-- Embeds `abort` from `fvm/src/syscalls/vm.rs`: filter the supplied exit
code, run the message-reading closure, convert a recoverable error from it
into a pushed actor error (with the same filtered code), escalate a fatal
error to a fatal trap, and otherwise trap with the filtered code.  The result
mirrors Rust's `Result<(), Trap>` (paired with the kernel backtrace); the
source returns `Err(..)` on every path. -/
def abort (valid isSys : Nat → Bool) (sysIllegalArg : Nat)
    (utf8 : List Nat → Option String)
    (mem : Except ExecutionError (List Nat))
    (backtrace : List (Nat × String)) (code : Nat)
    (message_off message_len : Nat) :
    List (Nat × String) × Except Trap Unit :=
  let c := filteredExitCode valid isSys sysIllegalArg code
  match abortReadAndPush utf8 mem backtrace c message_off message_len with
  | .error (.syscall ecode emsg) =>
    (backtrace ++
        [(c, "actor aborted with an invalid message: " ++ emsg ++
            " (code=" ++ toString ecode ++ ")")],
      .error (Trap.code c))
  | .error (.fatal m) => (backtrace, .error (Trap.fatal m))
  | .ok bt => (bt, .error (Trap.code c))

/-! ## C10: `params_cbor` (`sdk/src/message.rs`)

`params_raw` performs `ipld::stat`/`ipld::read` syscalls (outside the shown
sources); it is parameterized by its result `raw`.  CBOR decoding into the
requested type `T` is parameterized by `dec` (`from_slice`).  The SDK `abort`
function never returns, so the outcome is a sum: either a value is returned
to the caller (`returns`, mirroring `SyscallResult<T>`) or the invocation is
aborted (`aborts`). -/

/-- Outcome of an SDK call that may abort the invocation instead of
returning. -/
inductive SdkOutcome (T : Type) where
  | returns (v : Except Nat T)
  | aborts (exitCode : Nat) (msg : String)

/-- Embeds `params_cbor` from `sdk/src/message.rs`: fetch the raw parameter
bytes (`?` propagates a syscall error to the caller), then CBOR-decode them;
a decode failure aborts with `ErrSerialization`, success returns the decoded
value. -/
def params_cbor {T : Type} (raw : Except Nat (Nat × List Nat))
    (dec : List Nat → Option T) : SdkOutcome T :=
  match raw with
  | .error e => .returns (.error e)
  | .ok (_codec, bytes) =>
    match dec bytes with
    | some v => .returns (.ok v)
    | none => .aborts errSerialization "could not deserialize parameters as cbor"

/-! ## C7: actor-record tuple serialization

Modelled from the spec: the `ActorState` struct and its
`Serialize_tuple`/`Deserialize_tuple` derives live in `fvm/src/state_tree.rs`
(outside the shown sources; `fvm/src/account_actor.rs` constructs it with the
fields `code`, `state`, `sequence`, `balance` in that order), and the DAG-CBOR
codec (`serde_ipld_dagcbor` behind `to_vec`/`from_slice` in
`ipld/encoding/src/lib.rs`) is an external library.  The model below is the
byte-level DAG-CBOR encoding of the fixed-order 4-tuple:

* the record is a CBOR array of 4 elements, in field order;
* each CID is CBOR tag 42 wrapping a byte string whose content is a `0x00`
  multibase prefix followed by the binary CID (varint version, varint codec,
  varint multihash code, varint digest size, digest bytes);
* `sequence : u64` is a CBOR unsigned integer;
* `balance` is the Filecoin big-integer encoding, a byte string that is
  empty for zero and otherwise a `0x00` sign byte (the balance is a
  `NonNegativeInteger` per the spec) followed by the big-endian magnitude.

The decoder is lenient about CBOR-head minimality (the round-trip claim only
exercises encoder outputs, which are minimal). -/

/-- Big-endian base-256 digits of `n`, exactly `w` bytes (low `8*w` bits). -/
def natToBEBytes : Nat → Nat → List Nat
  | 0, _ => []
  | w + 1, n => natToBEBytes w (n / 256) ++ [n % 256]

/-- Read big-endian base-256 digits back into a number. -/
def beBytesToNat (l : List Nat) : Nat :=
  l.foldl (fun acc b => acc * 256 + b) 0

/-- Minimal big-endian base-256 digits of `n`: empty for zero, no leading
zero byte otherwise. -/
def natToMinBEBytes (n : Nat) : List Nat :=
  if _h : n = 0 then [] else natToMinBEBytes (n / 256) ++ [n % 256]
decreasing_by exact Nat.div_lt_self (by omega) (by omega)

/-- Unsigned LEB128 (multiformats varint) encoding. -/
def varintEncode (n : Nat) : List Nat :=
  if _h : n < 128 then [n] else (n % 128 + 128) :: varintEncode (n / 128)
decreasing_by exact Nat.div_lt_self (by omega) (by omega)

/-- Unsigned LEB128 (multiformats varint) decoding, returning the value and
the unconsumed tail. -/
def varintDecode : List Nat → Option (Nat × List Nat)
  | [] => none
  | b :: rest =>
    if b < 128 then
      some (b, rest)
    else
      match varintDecode rest with
      | none => none
      | some (n, r) => some (n * 128 + (b - 128), r)

/-- CBOR head: major type (3 bits) and argument, in the shortest form. -/
def encodeHead (major arg : Nat) : List Nat :=
  if arg < 24 then [32 * major + arg]
  else if arg < 256 then [32 * major + 24, arg]
  else if arg < 65536 then (32 * major + 25) :: natToBEBytes 2 arg
  else if arg < 4294967296 then (32 * major + 26) :: natToBEBytes 4 arg
  else (32 * major + 27) :: natToBEBytes 8 arg

/-- CBOR head decoding: major type, argument, and unconsumed tail. -/
def decodeHead : List Nat → Option (Nat × Nat × List Nat)
  | [] => none
  | b :: rest =>
    if b % 32 < 24 then some (b / 32, b % 32, rest)
    else if b % 32 = 24 then
      match rest with
      | [] => none
      | a :: r => some (b / 32, a, r)
    else if b % 32 = 25 then
      if 2 ≤ rest.length then some (b / 32, beBytesToNat (rest.take 2), rest.drop 2)
      else none
    else if b % 32 = 26 then
      if 4 ≤ rest.length then some (b / 32, beBytesToNat (rest.take 4), rest.drop 4)
      else none
    else if b % 32 = 27 then
      if 8 ≤ rest.length then some (b / 32, beBytesToNat (rest.take 8), rest.drop 8)
      else none
    else none

/-- CBOR unsigned integer (major type 0): the encoding of `sequence : u64`. -/
def encodeU64 (n : Nat) : List Nat := encodeHead 0 n

/-- Decode a CBOR unsigned integer. -/
def decodeU64 (l : List Nat) : Option (Nat × List Nat) :=
  match decodeHead l with
  | some (0, n, rest) => some (n, rest)
  | _ => none

/-- CBOR byte string (major type 2): length head followed by the bytes. -/
def encodeByteString (bs : List Nat) : List Nat :=
  encodeHead 2 bs.length ++ bs

/-- Decode a CBOR byte string. -/
def decodeByteString (l : List Nat) : Option (List Nat × List Nat) :=
  match decodeHead l with
  | some (2, n, rest) =>
    if n ≤ rest.length then some (rest.take n, rest.drop n) else none
  | _ => none

/-- The binary form of a CID: varint version, varint codec, then the
multihash (varint code, varint digest size, digest bytes). -/
def cidToBytes (c : Cid) : List Nat :=
  varintEncode c.version ++ varintEncode c.codec ++
    varintEncode c.hashCode ++ varintEncode c.digest.length ++ c.digest

/-- Parse the binary form of a CID, returning the unconsumed tail. -/
def cidFromBytes (l : List Nat) : Option (Cid × List Nat) :=
  match varintDecode l with
  | none => none
  | some (v, l1) =>
    match varintDecode l1 with
    | none => none
    | some (cdc, l2) =>
      match varintDecode l2 with
      | none => none
      | some (hc, l3) =>
        match varintDecode l3 with
        | none => none
        | some (sz, l4) =>
          if sz ≤ l4.length then
            some (⟨v, cdc, hc, l4.take sz⟩, l4.drop sz)
          else none

/-- DAG-CBOR encoding of a CID: tag 42 (major type 6) wrapping a byte string
with a `0x00` multibase prefix before the binary CID. -/
def encodeCborCid (c : Cid) : List Nat :=
  encodeHead 6 42 ++ encodeByteString (0 :: cidToBytes c)

/-- Decode a DAG-CBOR CID: tag 42, byte string, `0x00` prefix, and a binary
CID consuming the whole byte-string content. -/
def decodeCborCid (l : List Nat) : Option (Cid × List Nat) :=
  match decodeHead l with
  | some (6, 42, rest) =>
    match decodeByteString rest with
    | some (bs, rest2) =>
      match bs with
      | 0 :: cidbs =>
        match cidFromBytes cidbs with
        | some (c, []) => some (c, rest2)
        | _ => none
      | _ => none
    | none => none
  | _ => none

/-- Filecoin big-integer encoding of the non-negative `balance`: a byte
string, empty for zero, otherwise a `0x00` sign byte followed by the
big-endian magnitude. -/
def encodeTokenAmount (n : Nat) : List Nat :=
  encodeByteString (if n = 0 then [] else 0 :: natToMinBEBytes n)

/-- Decode a non-negative Filecoin big integer. -/
def decodeTokenAmount (l : List Nat) : Option (Nat × List Nat) :=
  match decodeByteString l with
  | none => none
  | some (bs, rest) =>
    match bs with
    | [] => some (0, rest)
    | 0 :: mag => some (beBytesToNat mag, rest)
    | _ => none

/-- The actor record (`ActorState` in `fvm/src/state_tree.rs`, constructed in
`fvm/src/account_actor.rs`): code CID, state CID, sequence nonce, balance. -/
structure ActorState where
  code : Cid
  state : Cid
  sequence : Nat
  balance : Nat
deriving DecidableEq, Repr

/-- Modelled from the spec: `to_vec` of an `ActorState` under the
`Serialize_tuple` derive — a fixed-order CBOR array of the four fields. -/
def actorStateToVec (a : ActorState) : List Nat :=
  encodeHead 4 4 ++ encodeCborCid a.code ++ encodeCborCid a.state ++
    encodeU64 a.sequence ++ encodeTokenAmount a.balance

/-- Modelled from the spec: `from_slice` into an `ActorState` — parse the
4-element array in field order and require the input to be fully consumed. -/
def actorStateFromSlice (l : List Nat) : Option ActorState :=
  match decodeHead l with
  | some (4, 4, r0) =>
    match decodeCborCid r0 with
    | none => none
    | some (code, r1) =>
      match decodeCborCid r1 with
      | none => none
      | some (state, r2) =>
        match decodeU64 r2 with
        | none => none
        | some (seq, r3) =>
          match decodeTokenAmount r3 with
          | some (bal, []) => some ⟨code, state, seq, bal⟩
          | _ => none
  | _ => none

/-- Validity of a CID's fields: `u64`-sized version, codec and multihash
code, and a digest of at most 64 bytes (`Multihash<64>`). -/
def Cid.Valid (c : Cid) : Prop :=
  c.version < 2 ^ 64 ∧ c.codec < 2 ^ 64 ∧ c.hashCode < 2 ^ 64 ∧
    c.digest.length ≤ 64

instance (c : Cid) : Decidable c.Valid := by
  unfold Cid.Valid; infer_instance

/-- Validity of an actor record's fields: valid CIDs, a `u64` sequence, and a
balance whose magnitude fits in 64 bytes. -/
def ActorState.Valid (a : ActorState) : Prop :=
  a.code.Valid ∧ a.state.Valid ∧ a.sequence < 2 ^ 64 ∧ a.balance < 256 ^ 64

instance (a : ActorState) : Decidable a.Valid := by
  unfold ActorState.Valid; infer_instance

/-! ## Byte-level lemmas for the serialization round-trip -/

theorem beFoldl_append (xs : List Nat) (a b : Nat) :
    (xs ++ [b]).foldl (fun acc d => acc * 256 + d) a
      = (xs.foldl (fun acc d => acc * 256 + d) a) * 256 + b := by
  simp [List.foldl_append]

theorem beBytesToNat_append (xs : List Nat) (b : Nat) :
    beBytesToNat (xs ++ [b]) = beBytesToNat xs * 256 + b := by
  simp [beBytesToNat, beFoldl_append]

theorem natToBEBytes_length (w : Nat) : ∀ n, (natToBEBytes w n).length = w := by
  induction w with
  | zero => intro n; rfl
  | succ w ih => intro n; simp [natToBEBytes, ih]

theorem beFoldl_natToBEBytes (w : Nat) : ∀ n a, n < 256 ^ w →
    (natToBEBytes w n).foldl (fun acc d => acc * 256 + d) a
      = a * 256 ^ w + n := by
  induction w with
  | zero =>
    intro n a h
    have hn : n = 0 := by omega
    simp [natToBEBytes, hn]
  | succ w ih =>
    intro n a h
    have hdiv : n / 256 < 256 ^ w := by
      rw [Nat.div_lt_iff_lt_mul (by omega)]
      calc n < 256 ^ (w + 1) := h
        _ = 256 ^ w * 256 := by rw [pow_succ]
    calc (natToBEBytes (w + 1) n).foldl (fun acc d => acc * 256 + d) a
        = ((natToBEBytes w (n / 256)) ++ [n % 256]).foldl
            (fun acc d => acc * 256 + d) a := by rw [natToBEBytes]
      _ = (a * 256 ^ w + n / 256) * 256 + n % 256 := by
            rw [beFoldl_append, ih (n / 256) a hdiv]
      _ = a * (256 ^ w * 256) + (256 * (n / 256) + n % 256) := by ring
      _ = a * 256 ^ (w + 1) + n := by rw [Nat.div_add_mod, pow_succ]

theorem beBytesToNat_natToBEBytes (w n : Nat) (h : n < 256 ^ w) :
    beBytesToNat (natToBEBytes w n) = n := by
  have := beFoldl_natToBEBytes w n 0 h
  simpa [beBytesToNat] using this

theorem take_length_append (xs ys : List Nat) : (xs ++ ys).take xs.length = xs :=
  List.take_left xs ys

theorem drop_length_append (xs ys : List Nat) : (xs ++ ys).drop xs.length = ys :=
  List.drop_left xs ys

theorem decodeHead_encodeHead (major arg : Nat) (ha : arg < 2 ^ 64)
    (rest : List Nat) :
    decodeHead (encodeHead major arg ++ rest) = some (major, arg, rest) := by
  by_cases h24 : arg < 24
  · have h1 : (32 * major + arg) % 32 = arg := by omega
    have h2 : (32 * major + arg) / 32 = major := by omega
    simp [encodeHead, h24, decodeHead, h1, h2]
  · by_cases h256 : arg < 256
    · have h1 : (32 * major + 24) % 32 = 24 := by omega
      have h2 : (32 * major + 24) / 32 = major := by omega
      simp [encodeHead, h24, h256, decodeHead, h1, h2]
    · by_cases h65536 : arg < 65536
      · have h1 : (32 * major + 25) % 32 = 25 := by omega
        have h2 : (32 * major + 25) / 32 = major := by omega
        have hlen : (natToBEBytes 2 arg).length = 2 := natToBEBytes_length 2 arg
        have htake : (natToBEBytes 2 arg ++ rest).take 2 = natToBEBytes 2 arg := by
          rw [← hlen]; exact take_length_append _ _
        have hdrop : (natToBEBytes 2 arg ++ rest).drop 2 = rest := by
          rw [← hlen]; exact drop_length_append _ _
        have hval : beBytesToNat (natToBEBytes 2 arg) = arg :=
          beBytesToNat_natToBEBytes 2 arg (by norm_num; omega)
        simp [encodeHead, h24, h256, h65536, decodeHead, h1, h2, hlen, htake,
          hdrop, hval]
      · by_cases h32 : arg < 4294967296
        · have h1 : (32 * major + 26) % 32 = 26 := by omega
          have h2 : (32 * major + 26) / 32 = major := by omega
          have hlen : (natToBEBytes 4 arg).length = 4 := natToBEBytes_length 4 arg
          have htake : (natToBEBytes 4 arg ++ rest).take 4 = natToBEBytes 4 arg := by
            rw [← hlen]; exact take_length_append _ _
          have hdrop : (natToBEBytes 4 arg ++ rest).drop 4 = rest := by
            rw [← hlen]; exact drop_length_append _ _
          have hval : beBytesToNat (natToBEBytes 4 arg) = arg :=
            beBytesToNat_natToBEBytes 4 arg (by norm_num; omega)
          simp [encodeHead, h24, h256, h65536, h32, decodeHead, h1, h2, hlen,
            htake, hdrop, hval]
        · have h1 : (32 * major + 27) % 32 = 27 := by omega
          have h2 : (32 * major + 27) / 32 = major := by omega
          have hlen : (natToBEBytes 8 arg).length = 8 := natToBEBytes_length 8 arg
          have htake : (natToBEBytes 8 arg ++ rest).take 8 = natToBEBytes 8 arg := by
            rw [← hlen]; exact take_length_append _ _
          have hdrop : (natToBEBytes 8 arg ++ rest).drop 8 = rest := by
            rw [← hlen]; exact drop_length_append _ _
          have hval : beBytesToNat (natToBEBytes 8 arg) = arg :=
            beBytesToNat_natToBEBytes 8 arg (by norm_num; omega)
          simp [encodeHead, h24, h256, h65536, h32, decodeHead, h1, h2, hlen,
            htake, hdrop, hval]

theorem varintDecode_varintEncode (n : Nat) :
    ∀ rest, varintDecode (varintEncode n ++ rest) = some (n, rest) := by
  induction n using Nat.strong_induction_on with
  | _ n ih =>
    intro rest
    rw [varintEncode]
    by_cases h : n < 128
    · simp [h, varintDecode]
    · have hdiv : n / 128 < n := Nat.div_lt_self (by omega) (by omega)
      have hb : ¬ (n % 128 + 128 < 128) := by omega
      simp only [h, dite_false, List.cons_append, varintDecode, hb, if_false,
        ih (n / 128) hdiv rest]
      have heq : n / 128 * 128 + n % 128 = n := by omega
      simp [heq]

theorem beBytesToNat_natToMinBEBytes (n : Nat) :
    beBytesToNat (natToMinBEBytes n) = n := by
  induction n using Nat.strong_induction_on with
  | _ n ih =>
    rw [natToMinBEBytes]
    by_cases h : n = 0
    · simp [h, beBytesToNat]
    · have hdiv : n / 256 < n := Nat.div_lt_self (by omega) (by omega)
      simp only [h, dite_false, beBytesToNat_append, ih (n / 256) hdiv]
      omega

theorem natToMinBEBytes_length_le (w : Nat) :
    ∀ n, n < 256 ^ w → (natToMinBEBytes n).length ≤ w := by
  induction w with
  | zero =>
    intro n h
    have hn : n = 0 := by omega
    rw [natToMinBEBytes]
    simp [hn]
  | succ w ih =>
    intro n h
    rw [natToMinBEBytes]
    by_cases hz : n = 0
    · simp [hz]
    · have hdiv : n / 256 < 256 ^ w := by
        rw [Nat.div_lt_iff_lt_mul (by omega)]
        calc n < 256 ^ (w + 1) := h
          _ = 256 ^ w * 256 := by rw [pow_succ]
      simp only [hz, dite_false, List.length_append, List.length_cons,
        List.length_nil]
      have := ih (n / 256) hdiv
      omega

theorem varintEncode_length_le (k : Nat) :
    ∀ n, n < 128 ^ (k + 1) → (varintEncode n).length ≤ k + 1 := by
  induction k with
  | zero =>
    intro n h
    rw [varintEncode]
    have : n < 128 := by simpa using h
    simp [this]
  | succ k ih =>
    intro n h
    rw [varintEncode]
    by_cases hlt : n < 128
    · simp [hlt]
    · have hdiv : n / 128 < 128 ^ (k + 1) := by
        rw [Nat.div_lt_iff_lt_mul (by omega)]
        calc n < 128 ^ (k + 2) := h
          _ = 128 ^ (k + 1) * 128 := by rw [pow_succ]
      simp only [hlt, dite_false, List.length_cons]
      have := ih (n / 128) hdiv
      omega

theorem decodeU64_encodeU64 (n : Nat) (h : n < 2 ^ 64) (rest : List Nat) :
    decodeU64 (encodeU64 n ++ rest) = some (n, rest) := by
  simp [decodeU64, encodeU64, decodeHead_encodeHead 0 n h rest]

theorem decodeByteString_encodeByteString (bs : List Nat)
    (h : bs.length < 2 ^ 64) (rest : List Nat) :
    decodeByteString (encodeByteString bs ++ rest) = some (bs, rest) := by
  rw [encodeByteString, List.append_assoc]
  simp only [decodeByteString, decodeHead_encodeHead 2 bs.length h (bs ++ rest)]
  have hle : bs.length ≤ (bs ++ rest).length := by simp
  simp [hle, take_length_append, drop_length_append]

theorem cidFromBytes_cidToBytes (c : Cid) (rest : List Nat) :
    cidFromBytes (cidToBytes c ++ rest) = some (c, rest) := by
  obtain ⟨v, cdc, hc, dg⟩ := c
  simp only [cidToBytes, List.append_assoc]
  simp only [cidFromBytes, varintDecode_varintEncode]
  have hle : dg.length ≤ (dg ++ rest).length := by simp
  simp [hle, take_length_append, drop_length_append]

theorem decodeCborCid_encodeCborCid (c : Cid) (hv : c.Valid) (rest : List Nat) :
    decodeCborCid (encodeCborCid c ++ rest) = some (c, rest) := by
  obtain ⟨hver, hcdc, hhc, hdg⟩ := hv
  have hb64 : (2 : Nat) ^ 64 ≤ 128 ^ 10 := by norm_num
  have hver10 : c.version < 128 ^ 10 := lt_of_lt_of_le hver hb64
  have hcdc10 : c.codec < 128 ^ 10 := lt_of_lt_of_le hcdc hb64
  have hhc10 : c.hashCode < 128 ^ 10 := lt_of_lt_of_le hhc hb64
  have hlen10 : c.digest.length < 128 ^ 10 := by
    have : (64 : Nat) < 128 ^ 10 := by norm_num
    omega
  have h1 := varintEncode_length_le 9 c.version (by simpa using hver10)
  have h2 := varintEncode_length_le 9 c.codec (by simpa using hcdc10)
  have h3 := varintEncode_length_le 9 c.hashCode (by simpa using hhc10)
  have h4 := varintEncode_length_le 9 c.digest.length (by simpa using hlen10)
  have hclen : (0 :: cidToBytes c).length < 2 ^ 64 := by
    simp only [List.length_cons, cidToBytes, List.length_append]
    omega
  rw [encodeCborCid, List.append_assoc]
  simp only [decodeCborCid, decodeHead_encodeHead 6 42 (by norm_num) _,
    decodeByteString_encodeByteString _ hclen rest]
  have hcid : cidFromBytes (cidToBytes c) = some (c, []) := by
    have := cidFromBytes_cidToBytes c []
    simpa using this
  simp [hcid]

theorem decodeTokenAmount_encodeTokenAmount (n : Nat) (h : n < 256 ^ 64)
    (rest : List Nat) :
    decodeTokenAmount (encodeTokenAmount n ++ rest) = some (n, rest) := by
  by_cases hz : n = 0
  · have hlen : (([] : List Nat)).length < 2 ^ 64 := by norm_num
    simp [encodeTokenAmount, decodeTokenAmount, hz,
      decodeByteString_encodeByteString [] hlen rest]
  · have hmag := natToMinBEBytes_length_le 64 n h
    have hlen : (0 :: natToMinBEBytes n).length < 2 ^ 64 := by
      simp only [List.length_cons]
      omega
    simp [encodeTokenAmount, decodeTokenAmount, hz,
      decodeByteString_encodeByteString _ hlen rest,
      beBytesToNat_natToMinBEBytes]

theorem actorStateFromSlice_actorStateToVec (a : ActorState) (hv : a.Valid) :
    actorStateFromSlice (actorStateToVec a) = some a := by
  obtain ⟨hcode, hstate, hseq, hbal⟩ := hv
  obtain ⟨code, state, seq, bal⟩ := a
  simp only [actorStateToVec, List.append_assoc]
  simp only [actorStateFromSlice,
    decodeHead_encodeHead 4 4 (by norm_num) _,
    decodeCborCid_encodeCborCid code hcode _,
    decodeCborCid_encodeCborCid state hstate _,
    decodeU64_encodeU64 seq hseq _]
  have hta := decodeTokenAmount_encodeTokenAmount bal hbal []
  rw [List.append_nil] at hta
  simp [hta]

theorem collectPubKeys_none_of_mem (pkDec : List Nat → Option Nat)
    (ks : List (List Nat)) (k : List Nat) (hk : k ∈ ks)
    (hnone : pkDec k = none) : collectPubKeys pkDec ks = none := by
  induction ks with
  | nil => exact absurd hk (List.not_mem_nil k)
  | cons x xs ih =>
    rcases List.mem_cons.mp hk with rfl | hmem
    · simp [collectPubKeys, hnone]
    · cases hx : pkDec x with
      | none => simp [collectPubKeys, hx]
      | some pk => simp [collectPubKeys, hx, ih hmem]

/-! ## Claim theorems -/

/-- C1: For every CID `k` and byte string `bytes`, `put_keyed(k, bytes)`
succeeds if and only if re-hashing `bytes` under the hash function and codec
implied by `k` reproduces `k` exactly; and every failure of `put_keyed` is a
serialization error (in particular, whenever the recomputed identifier
differs from `k`, `put_keyed` fails with a serialization error).  Quantified
over all multihash code sets and hash functions. -/
theorem C1_put_keyed_succeeds_iff_cid_matches
    (supported : Nat → Bool) (hashFn : Nat → List Nat → List Nat)
    (k : Cid) (block : List Nat) :
    (ActorBlockstore.put_keyed supported hashFn k block = .ok () ↔
      recomputeCid supported hashFn k block = some k)
    ∧ (∀ e, ActorBlockstore.put_keyed supported hashFn k block = .error e →
        e.exitCode = errSerialization) := by
  unfold ActorBlockstore.put_keyed recomputeCid codeTryFrom
  by_cases hs : supported k.hashCode
  · simp only [hs, if_true, Option.map_some]
    by_cases heq : k = ActorBlockstore.put hashFn k.hashCode k.codec block
    · constructor
      · simp [← heq]
      · intro e he
        rw [if_neg (by simp [← heq])] at he
        exact absurd he (by simp)
    · constructor
      · rw [if_pos heq]
        constructor
        · intro h; exact absurd h (by simp)
        · intro h
          exact absurd (Option.some_injective _ h).symm heq
      · intro e he
        rw [if_pos heq] at he
        have : e = ⟨errSerialization, "put block cid mismatch"⟩ := by
          simpa using he.symm
        rw [this]
  · simp only [hs, if_false, Option.map_none]
    constructor
    · constructor
      · intro h; exact absurd h (by simp)
      · intro h; exact absurd h (by simp)
    · intro e he
      have : e = ⟨errSerialization, "unsupported multihash code"⟩ := by
        simpa using he.symm
      rw [this]

/-- C1 witness: a deliberately mismatched CID/byte pair makes `put_keyed`
fail with a serialization error. -/
theorem C1_put_keyed_witness :
    ActorBlockstore.put_keyed (fun c => c == 1) (fun _ d => d)
        ⟨1, 113, 1, [9]⟩ [1, 2]
      = .error ⟨errSerialization, "put block cid mismatch"⟩
    ∧ (⟨errSerialization, "put block cid mismatch"⟩ : ActorError).exitCode
        = errSerialization := by
  refine ⟨rfl, ?_⟩
  exact (C1_put_keyed_succeeds_iff_cid_matches (fun c => c == 1) (fun _ d => d)
    ⟨1, 113, 1, [9]⟩ [1, 2]).2 ⟨errSerialization, "put block cid mismatch"⟩ rfl

/-- C2: aggregate verification of an empty message list against an empty
public-key list returns `true` for every aggregate signature, well-formed or
not, and under every behaviour of the BLS primitives. -/
theorem C2_verify_aggregate_empty_vacuous
    (sigDec pkDec : List Nat → Option Nat)
    (verifyMessages : Nat → List (List Nat) → List Nat → Bool)
    (sig : Signature) :
    verify_bls_aggregate sigDec pkDec verifyMessages [] [] sig = true := by
  simp [verify_bls_aggregate]

/-- C3: when the message and public-key lists have different lengths,
aggregate verification returns `false`; the result is independent of the BLS
primitives (quantified over all of them), so no signature or key is parsed
or checked. -/
theorem C3_verify_aggregate_mismatched_lengths
    (sigDec pkDec : List Nat → Option Nat)
    (verifyMessages : Nat → List (List Nat) → List Nat → Bool)
    (data pub_keys : List (List Nat)) (sig : Signature)
    (h : data.length ≠ pub_keys.length) :
    verify_bls_aggregate sigDec pkDec verifyMessages data pub_keys sig
      = false := by
  simp [verify_bls_aggregate, h]

/-- C3 witness: one message and no keys. -/
theorem C3_mismatched_lengths_witness :
    ([[1]] : List (List Nat)).length ≠ ([] : List (List Nat)).length
    ∧ verify_bls_aggregate (fun _ => some 0) (fun _ => some 0)
        (fun _ _ _ => true) [[1]] [] ⟨.bls, []⟩ = false :=
  ⟨by decide,
    C3_verify_aggregate_mismatched_lengths (fun _ => some 0) (fun _ => some 0)
      (fun _ _ _ => true) [[1]] [] ⟨.bls, []⟩ (by decide)⟩

/-- C4: on non-empty, equal-length input, if the aggregate signature bytes or
any public-key bytes fail to decode, aggregate verification returns `false`
(no decode error is propagated). -/
theorem C4_verify_aggregate_malformed_input
    (sigDec pkDec : List Nat → Option Nat)
    (verifyMessages : Nat → List (List Nat) → List Nat → Bool)
    (data pub_keys : List (List Nat)) (sig : Signature)
    (hlen : data.length = pub_keys.length) (hne : data ≠ [])
    (hbad : sigDec sig.bytes = none ∨ ∃ k ∈ pub_keys, pkDec k = none) :
    verify_bls_aggregate sigDec pkDec verifyMessages data pub_keys sig
      = false := by
  unfold verify_bls_aggregate
  rw [if_neg (by simp [hlen])]
  have hempty : data.isEmpty = false := by
    cases data with
    | nil => exact absurd rfl hne
    | cons d ds => rfl
  rw [hempty, if_neg (by simp)]
  rcases hbad with hsig | ⟨k, hk, hkey⟩
  · simp [hsig]
  · cases hsd : sigDec sig.bytes with
    | none => simp
    | some s =>
      simp only []
      rw [collectPubKeys_none_of_mem pkDec pub_keys k hk hkey]

/-- C4 witness: equal-length non-empty lists with an undecodable key. -/
theorem C4_malformed_input_witness :
    verify_bls_aggregate (fun _ => some 0) (fun _ => none)
        (fun _ _ _ => true) [[1]] [[2]] ⟨.bls, [3]⟩ = false :=
  C4_verify_aggregate_malformed_input (fun _ => some 0) (fun _ => none)
    (fun _ _ _ => true) [[1]] [[2]] ⟨.bls, [3]⟩ (by decide) (by decide)
    (Or.inr ⟨[2], by decide, rfl⟩)

/-- C5: for every signature, data and address whose protocol is neither BLS
nor Secp256k1, `verify` rejects the input as not verifiable, independently of
all cryptographic primitives (none is consulted): the dispatch is solely on
the protocol tag. -/
theorem C5_verify_rejects_unresolved_address
    (pkDec sigDec : List Nat → Option Nat)
    (verifyMessages : Nat → List (List Nat) → List Nat → Bool)
    (lib : SecpLib) (blake2b256 addressHash : List Nat → List Nat)
    (sign : Signature) (data : List Nat) (addr : Address)
    (h1 : addr.protocol ≠ .bls) (h2 : addr.protocol ≠ .secp256k1) :
    verify pkDec sigDec verifyMessages lib blake2b256 addressHash sign data addr
      = .error "Address must be resolved to verify a signature" := by
  unfold verify
  cases hp : addr.protocol with
  | id => rfl
  | actor => rfl
  | bls => exact absurd hp h1
  | secp256k1 => exact absurd hp h2

/-- C5 witness: an ID-protocol address is rejected. -/
theorem C5_unresolved_address_witness :
    verify (fun _ => some 0) (fun _ => some 0) (fun _ _ _ => true)
        ⟨fun _ => .ok 0, fun _ _ _ => .ok 0, fun _ => []⟩ (fun l => l)
        (fun l => l) ⟨.secp256k1, [1]⟩ [2] ⟨.id, [3]⟩
      = .error "Address must be resolved to verify a signature" :=
  C5_verify_rejects_unresolved_address (fun _ => some 0) (fun _ => some 0)
    (fun _ _ _ => true) ⟨fun _ => .ok 0, fun _ _ _ => .ok 0, fun _ => []⟩
    (fun l => l) (fun l => l) ⟨.secp256k1, [1]⟩ [2] ⟨.id, [3]⟩
    (by decide) (by decide)

/-- C6: for every 32-byte hash and 65-byte signature, if the recovery
identifier byte (index 64) is malformed (not one of `0..=3`, which is what
`RecoveryId::parse` accepts), `ecrecover` fails with an invalid-recovery
error; and recovery is deterministic: identical byte inputs give identical
results. -/
theorem C6_ecrecover_invalid_recovery_and_deterministic
    (lib : SecpLib) (addressHash : List Nat → List Nat)
    (hash signature : List Nat)
    (_hh : hash.length = 32) (_hs : signature.length = 65) :
    (4 ≤ signature.getD 64 0 →
      ecrecover lib addressHash hash signature
        = .error (.invalidRecovery "InvalidRecoveryId"))
    ∧ (∀ hash2 sig2, hash2 = hash → sig2 = signature →
        ecrecover lib addressHash hash2 sig2
          = ecrecover lib addressHash hash signature) := by
  constructor
  · intro hbad
    unfold ecrecover recoveryIdParse
    rw [if_neg (by omega)]
    rfl
  · intro hash2 sig2 e1 e2
    rw [e1, e2]

/-- C6 witness: recovery byte 4 at index 64 yields the invalid-recovery
error. -/
theorem C6_ecrecover_witness :
    ecrecover ⟨fun _ => .ok 0, fun _ _ _ => .ok 0, fun _ => []⟩ (fun l => l)
        (List.replicate 32 0) (List.replicate 65 4)
      = .error (.invalidRecovery "InvalidRecoveryId") :=
  (C6_ecrecover_invalid_recovery_and_deterministic
    ⟨fun _ => .ok 0, fun _ _ _ => .ok 0, fun _ => []⟩ (fun l => l)
    (List.replicate 32 0) (List.replicate 65 4)
    (by decide) (by decide)).1 (by decide)

/-- C7: for every actor record with valid field values — including zero
balance and zero sequence — encoding the record as a fixed-order tuple and
then decoding yields a record identical to the original. -/
theorem C7_actor_record_roundtrip (a : ActorState) (hv : a.Valid) :
    actorStateFromSlice (actorStateToVec a) = some a :=
  actorStateFromSlice_actorStateToVec a hv

/-- C7 witness: a record with zero balance and zero sequence round-trips. -/
theorem C7_actor_record_roundtrip_witness :
    actorStateFromSlice (actorStateToVec
        ⟨⟨1, 85, 0, [7]⟩, ⟨1, 113, 45600, [3, 4]⟩, 0, 0⟩)
      = some ⟨⟨1, 85, 0, [7]⟩, ⟨1, 113, 45600, [3, 4]⟩, 0, 0⟩ :=
  C7_actor_record_roundtrip ⟨⟨1, 85, 0, [7]⟩, ⟨1, 113, 45600, [3, 4]⟩, 0, 0⟩
    (by decide)

/-- C8: calling `self_destruct` with the actor itself as beneficiary fails
with a recoverable (`syscall`, hence frame-aborting but parent-preserving)
illegal-argument fault, returning no mutated state — the balance is
unchanged; with any beneficiary distinct from the actor, the actor's balance
is zeroed, the beneficiary is credited that amount, and the record is marked
for removal. -/
theorem C8_self_destruct_to_self_fails (selfId beneficiary : Nat)
    (st : FrameState) :
    (beneficiary = selfId →
      selfDestruct selfId beneficiary st
        = .error (.syscall errIllegalArgument "benefactor cannot be itself"))
    ∧ (beneficiary ≠ selfId →
      ∃ st2, selfDestruct selfId beneficiary st = .ok st2
        ∧ st2.balance selfId = 0
        ∧ st2.balance beneficiary = st.balance beneficiary + st.balance selfId
        ∧ selfId ∈ st2.marked) := by
  constructor
  · intro h
    rw [selfDestruct, if_pos h]
  · intro h
    rw [selfDestruct, if_neg h]
    refine ⟨_, rfl, ?_, ?_, ?_⟩
    · simp [Ne.symm h]
    · simp
    · simp

/-- C8 witness: self-destructing to oneself fails; to another actor, the
balance moves and the record is marked. -/
theorem C8_self_destruct_witness :
    (selfDestruct 7 7 ⟨fun _ => 100, []⟩
      = .error (.syscall errIllegalArgument "benefactor cannot be itself"))
    ∧ ∃ st2, selfDestruct 7 8 ⟨fun _ => 100, []⟩ = .ok st2
        ∧ st2.balance 7 = 0
        ∧ st2.balance 8 = 100 + 100
        ∧ 7 ∈ st2.marked :=
  ⟨(C8_self_destruct_to_self_fails 7 7 ⟨fun _ => 100, []⟩).1 rfl,
    (C8_self_destruct_to_self_fails 7 8 ⟨fun _ => 100, []⟩).2 (by decide)⟩

/-- C9: the `abort` syscall handler always ends in a trap (it never returns
success to the actor); the trap is fatal exactly when obtaining the kernel
and memory failed fatally, and otherwise carries the actor-supplied code
when that code is a valid exit code outside the system-error band and
`SysErrIllegalArgument` otherwise — in particular a recoverable error while
reading the abort message leaves the exit code unchanged. -/
theorem C9_abort_always_traps (valid isSys : Nat → Bool) (sysIllegalArg : Nat)
    (utf8 : List Nat → Option String) (mem : Except ExecutionError (List Nat))
    (backtrace : List (Nat × String)) (code message_off message_len : Nat) :
    (abort valid isSys sysIllegalArg utf8 mem backtrace code
        message_off message_len).2
      = .error (match mem with
          | .error (.fatal m) => Trap.fatal m
          | _ => Trap.code
              (if valid code && !isSys code then code else sysIllegalArg)) := by
  cases mem with
  | error e =>
    cases e with
    | syscall c m => simp [abort, abortReadAndPush, filteredExitCode]
    | fatal m => simp [abort, abortReadAndPush, filteredExitCode]
  | ok memory =>
    by_cases hlen : message_len = 0
    · simp [abort, abortReadAndPush, filteredExitCode, hlen]
    · by_cases hb : message_off + message_len ≤ memory.length
      · cases hu : utf8 ((memory.drop message_off).take message_len) with
        | none =>
          simp [abort, abortReadAndPush, filteredExitCode, trySlice, hlen,
            hb, hu]
        | some s =>
          simp [abort, abortReadAndPush, filteredExitCode, trySlice, hlen,
            hb, hu]
      · simp [abort, abortReadAndPush, filteredExitCode, trySlice, hlen, hb]

/-- C10: when the raw parameter bytes are fetched successfully but fail to
CBOR-decode into the requested type, `params_cbor` does not return an error
value to the caller — it aborts the invocation with the `ErrSerialization`
exit code and a descriptive message; on decode success it returns the
decoded value. -/
theorem C10_params_cbor_aborts_on_decode_failure (T : Type)
    (raw : Except Nat (Nat × List Nat)) (dec : List Nat → Option T)
    (codec : Nat) (bytes : List Nat) (hraw : raw = .ok (codec, bytes)) :
    (dec bytes = none →
      params_cbor raw dec
        = .aborts errSerialization "could not deserialize parameters as cbor")
    ∧ (∀ v, dec bytes = some v → params_cbor raw dec = .returns (.ok v)) := by
  subst hraw
  constructor
  · intro h
    simp [params_cbor, h]
  · intro v h
    simp [params_cbor, h]

/-- C10 witness: an undecodable parameter block aborts with
`ErrSerialization`; a decodable one returns the value. -/
theorem C10_params_cbor_witness :
    (params_cbor (Except.ok (113, [129]) : Except Nat (Nat × List Nat))
        (fun _ => (none : Option Nat))
      = .aborts errSerialization "could not deserialize parameters as cbor")
    ∧ params_cbor (Except.ok (113, [5]) : Except Nat (Nat × List Nat))
        (fun _ => some 5) = .returns (.ok 5) :=
  ⟨(C10_params_cbor_aborts_on_decode_failure Nat _ (fun _ => none) 113 [129]
      rfl).1 rfl,
    (C10_params_cbor_aborts_on_decode_failure Nat _ (fun _ => some 5) 113 [5]
      rfl).2 5 rfl⟩

end FvmSpec
